import Mathlib

/-!
Verification of the node-registry and broadcast engine of
`app/node/__init__.py` (class `NodeManager`).

The Python code is shallowly embedded: the node map `self._nodes`
(a `dict[int, PasarGuardNode]`, which preserves insertion order) is an
association list; each method becomes a pure function returning its
result as `Except PyErr _`, the list of external calls it performed
(the trace), and the successor state.  Calls into a node handle
(`set_health`, `stop`, `get_health`, `update_user`, `update_users`)
are supplied by the external `PasarGuardNodeBridge` collaborator, so a
handle carries a `NodeBehavior` describing how each of those calls
behaves; every invocation is recorded as an `Event` whether or not it
raises.  The `aiorwlock` reader/writer lock only serializes the
methods against each other, so a single sequential call is modelled
without it.
-/

/-- Health states of a node handle (external `Health` enum). -/
inductive Health where
  | NOT_CONNECTED
  | HEALTHY
  | BROKEN
  | INVALID
deriving DecidableEq, Repr

/-- Transport kinds of the external bridge (`NodeType` enum). -/
inductive NodeType where
  | rest
  | grpc
deriving DecidableEq, Repr

/-- Connection kinds stored in node configuration
(`NodeConnectionType` enum of `app.db.models`); `other` stands for any
value outside the two kinds `type_map` knows. -/
inductive NodeConnectionType where
  | rest
  | grpc
  | other (tag : String)
deriving DecidableEq, Repr

/-- `type_map`: the dict `{NodeConnectionType.rest: NodeType.rest,
NodeConnectionType.grpc: NodeType.grpc}`; `none` models the `KeyError`
raised by `type_map[k]` on a missing key. -/
def type_map : NodeConnectionType → Option NodeType
  | NodeConnectionType.rest => some NodeType.rest
  | NodeConnectionType.grpc => some NodeType.grpc
  | NodeConnectionType.other _ => none

/-- How the external transport behind one handle answers each call the
registry makes.  A `true` flag means that call raises; `getHealth =
none` means the `get_health` query raises. -/
structure NodeBehavior where
  setHealthFails : Bool
  stopFails : Bool
  getHealth : Option Health
  updateUserFails : Bool
  updateUsersFails : Bool
deriving DecidableEq, Repr

/-- Behavior of a freshly created handle: every call succeeds and the
health query reports `NOT_CONNECTED`. -/
def NodeBehavior.fresh : NodeBehavior :=
  ⟨false, false, some Health.NOT_CONNECTED, false, false⟩

/-- A `PasarGuardNode` handle as the registry sees it: the connection
parameters `create_node` was given, plus the external behavior of its
transport. -/
structure PasarGuardNode where
  connection : NodeType
  address : String
  port : Int
  server_ca : String
  api_key : String
  name : String
  max_logs : Int
  extra_id : Int
  extra_usage_coefficient : Int
  behavior : NodeBehavior
deriving DecidableEq, Repr

/-- A node configuration row (`app.db.models.Node`) as consumed by
`update_node`. -/
structure Node where
  id : Int
  connection_type : NodeConnectionType
  address : String
  port : Int
  server_ca : String
  api_key : String
  name : String
  max_logs : Int
  usage_coefficient : Int
deriving DecidableEq, Repr

/-- `create_node` of the external bridge: builds a handle from the
connection parameters.  The transport behind a fresh handle is
external; it is modelled as `NodeBehavior.fresh`. -/
def create_node (connection : NodeType) (address : String) (port : Int)
    (server_ca : String) (api_key : String) (name : String) (max_logs : Int)
    (extra_id : Int) (extra_usage_coefficient : Int) : PasarGuardNode :=
  ⟨connection, address, port, server_ca, api_key, name, max_logs,
   extra_id, extra_usage_coefficient, NodeBehavior.fresh⟩

/-- A user's proxy settings; `dict` is `proxy_settings.dict()`. -/
structure ProxySettings where
  entries : List (String × String)
deriving DecidableEq, Repr

def ProxySettings.dict (p : ProxySettings) : List (String × String) :=
  p.entries

/-- `app.models.user.UserResponse` as consumed by
`update_user` / `remove_user`. -/
structure UserResponse where
  id : Int
  username : String
  proxy_settings : ProxySettings
deriving DecidableEq, Repr

/-- A `app.db.models.User` row as consumed by `update_users`; the
broadcast code never inspects it, so only an identifier is kept. -/
structure User where
  id : Int
deriving DecidableEq, Repr

/-- Wire-format message for one user, produced by the external
serializer. -/
structure ProtoUser where
  id : Int
  username : String
  proxies : List (String × String)
  inbounds : Option (List String)
deriving DecidableEq, Repr

/-- Wire-format message for a batch of users, produced by the external
serializer. -/
structure ProtoUsers where
  users : List User
deriving DecidableEq, Repr

/-- Modelled from the spec: `serialize_user_for_node` lives in
`app/node/user.py`, which is absent from the sources; per the spec it
is the pure external transform `SerializeUserForNode(id, username,
proxyConfig, inbounds?)`, and an omitted `inbounds?` argument is the
same as passing no allow-list (`none`). -/
def serialize_user_for_node (id : Int) (username : String)
    (proxies : List (String × String)) (inbounds : Option (List String)) :
    ProtoUser :=
  ⟨id, username, proxies, inbounds⟩

/-- Modelled from the spec: `serialize_users_for_node` lives in
`app/node/user.py`, absent from the sources; per the spec it is the
pure external transform `SerializeUsersForNode(users)`. -/
def serialize_users_for_node (users : List User) : ProtoUsers :=
  ⟨users⟩

/-- One external call performed by the registry, recorded in order of
invocation (an invocation is recorded even when it raises). -/
inductive Event where
  | evSetHealth (name : String) (h : Health)
  | evStop (name : String)
  | evGetHealth (name : String)
  | evUpdateUser (name : String) (proto : ProtoUser)
  | evUpdateUsers (name : String) (protos : ProtoUsers)
  | evSerializeUser (id : Int) (username : String)
      (proxies : List (String × String)) (inbounds : Option (List String))
  | evSerializeUsers (users : List User)
deriving DecidableEq, Repr

/-- Exceptions the embedded methods can raise. -/
inductive PyErr where
  | keyError
  | nodeError
deriving DecidableEq, Repr

instance {ε α : Type} [DecidableEq ε] [DecidableEq α] :
    DecidableEq (Except ε α) := fun a b =>
  match a, b with
  | Except.ok x, Except.ok y =>
      if h : x = y then Decidable.isTrue (congrArg Except.ok h)
      else Decidable.isFalse (fun hh => h (Except.ok.inj hh))
  | Except.error x, Except.error y =>
      if h : x = y then Decidable.isTrue (congrArg Except.error h)
      else Decidable.isFalse (fun hh => h (Except.error.inj hh))
  | Except.ok _, Except.error _ => Decidable.isFalse (fun hh => Except.noConfusion hh)
  | Except.error _, Except.ok _ => Decidable.isFalse (fun hh => Except.noConfusion hh)

/-- The registry state: `self._nodes`, an insertion-ordered
`dict[int, PasarGuardNode]` as an association list with unique keys. -/
structure NodeManagerState where
  nodes : List (Int × PasarGuardNode)
deriving DecidableEq, Repr

/-- `d.get(k, None)` on the node dict. -/
def dictGet (k : Int) : List (Int × PasarGuardNode) → Option PasarGuardNode
  | [] => none
  | (k', v) :: rest => if k' = k then some v else dictGet k rest

/-- `del d[k]` on the node dict. -/
def dictDel (k : Int) : List (Int × PasarGuardNode) →
    List (Int × PasarGuardNode)
  | [] => []
  | (k', v) :: rest => if k' = k then rest else (k', v) :: dictDel k rest

/-- `d[k] = v` on the node dict: replaces in place when the key
exists, appends otherwise (Python dicts keep insertion order). -/
def dictSet (k : Int) (v : PasarGuardNode) :
    List (Int × PasarGuardNode) → List (Int × PasarGuardNode)
  | [] => [(k, v)]
  | (k', v') :: rest =>
      if k' = k then (k, v) :: rest else (k', v') :: dictSet k v rest

/-- The retirement block shared by `update_node` and `remove_node`:
`try: await old.set_health(INVALID); await old.stop() except
Exception: pass`.  `set_health` is always invoked; when it raises, the
`stop` call is skipped; either way the exception is swallowed, so only
the trace is returned. -/
def retireCalls (old : PasarGuardNode) : List Event :=
  if old.behavior.setHealthFails then
    [Event.evSetHealth old.name Health.INVALID]
  else
    [Event.evSetHealth old.name Health.INVALID, Event.evStop old.name]

/-- `NodeManager.update_node`: retire any old handle under `node.id`
(swallowing its errors, deleting it in the `finally`), then build the
new handle — where `type_map[node.connection_type]` raises `KeyError`
on an unknown kind — and install it. -/
def update_node (node : Node) (s : NodeManagerState) :
    Except PyErr PasarGuardNode × List Event × NodeManagerState :=
  let retired :=
    match dictGet node.id s.nodes with
    | none => (([] : List Event), s)
    | some old => (retireCalls old, ⟨dictDel node.id s.nodes⟩)
  match type_map node.connection_type with
  | none => (Except.error PyErr.keyError, retired.1, retired.2)
  | some conn =>
      let new_node := create_node conn node.address node.port node.server_ca
        node.api_key node.name node.max_logs node.id node.usage_coefficient
      (Except.ok new_node, retired.1, ⟨dictSet node.id new_node retired.2.nodes⟩)

/-- `NodeManager.remove_node`: retire and delete the handle under `id`
when present (errors swallowed, deletion in the `finally`); a no-op on
an absent id. -/
def remove_node (id : Int) (s : NodeManagerState) :
    Except PyErr Unit × List Event × NodeManagerState :=
  match dictGet id s.nodes with
  | none => (Except.ok (), [], s)
  | some old => (Except.ok (), retireCalls old, ⟨dictDel id s.nodes⟩)

/-- `NodeManager.get_node`: read-locked point lookup. -/
def get_node (id : Int) (s : NodeManagerState) : Option PasarGuardNode :=
  dictGet id s.nodes

/-- `NodeManager.get_nodes`: read-locked view of the whole map. -/
def get_nodes (s : NodeManagerState) : List (Int × PasarGuardNode) :=
  s.nodes

/-- The health-filter comprehension `[(id, node) for id, node in
self._nodes.items() if (await node.get_health() == target)]`: items
are scanned in order; a raising `get_health` aborts the whole
comprehension and propagates. -/
def healthScan (target : Health) : List (Int × PasarGuardNode) →
    Except PyErr (List (Int × PasarGuardNode)) × List Event
  | [] => (Except.ok [], [])
  | (id, node) :: rest =>
      match node.behavior.getHealth with
      | none => (Except.error PyErr.nodeError, [Event.evGetHealth node.name])
      | some h =>
          let tail := healthScan target rest
          (tail.1.map (fun l => if h = target then (id, node) :: l else l),
           Event.evGetHealth node.name :: tail.2)

/-- `NodeManager.get_healthy_nodes`. -/
def get_healthy_nodes (s : NodeManagerState) :
    Except PyErr (List (Int × PasarGuardNode)) × List Event :=
  healthScan Health.HEALTHY s.nodes

/-- `NodeManager.get_broken_nodes`. -/
def get_broken_nodes (s : NodeManagerState) :
    Except PyErr (List (Int × PasarGuardNode)) × List Event :=
  healthScan Health.BROKEN s.nodes

/-- `NodeManager.get_not_connected_nodes`. -/
def get_not_connected_nodes (s : NodeManagerState) :
    Except PyErr (List (Int × PasarGuardNode)) × List Event :=
  healthScan Health.NOT_CONNECTED s.nodes

/-- The loop of `update_users`: `for node in self._nodes.values():
await node.update_users(proto_users)` — no try/except, so a raising
call propagates and ends the loop. -/
def updateUsersLoop (protos : ProtoUsers) : List (Int × PasarGuardNode) →
    Except PyErr Unit × List Event
  | [] => (Except.ok (), [])
  | (_, node) :: rest =>
      if node.behavior.updateUsersFails then
        (Except.error PyErr.nodeError, [Event.evUpdateUsers node.name protos])
      else
        let tail := updateUsersLoop protos rest
        (tail.1, Event.evUpdateUsers node.name protos :: tail.2)

/-- `NodeManager.update_users`: serialize the batch once, then send it
to every node in the map (the loop has no per-node error handling). -/
def update_users (users : List User) (s : NodeManagerState) :
    Except PyErr Unit × List Event :=
  let proto_users := serialize_users_for_node users
  let loop := updateUsersLoop proto_users s.nodes
  (loop.1, Event.evSerializeUsers users :: loop.2)

/-- The loop of `_update_user`: `for node in self._nodes.values():
... await node.update_user(user)` — no try/except, so a raising call
propagates and ends the loop. -/
def updateUserLoop (proto : ProtoUser) : List (Int × PasarGuardNode) →
    Except PyErr Unit × List Event
  | [] => (Except.ok (), [])
  | (_, node) :: rest =>
      if node.behavior.updateUserFails then
        (Except.error PyErr.nodeError, [Event.evUpdateUser node.name proto])
      else
        let tail := updateUserLoop proto rest
        (tail.1, Event.evUpdateUser node.name proto :: tail.2)

/-- `NodeManager._update_user`: send one serialized user to every node
in the map (no per-node error handling). -/
def _update_user (proto : ProtoUser) (s : NodeManagerState) :
    Except PyErr Unit × List Event :=
  updateUserLoop proto s.nodes

/-- `NodeManager.update_user`: serialize one user, optionally scoped
to `inbounds`, and broadcast it via `_update_user`. -/
def update_user (user : UserResponse) (inbounds : Option (List String))
    (s : NodeManagerState) : Except PyErr Unit × List Event :=
  let proto_user := serialize_user_for_node user.id user.username
    user.proxy_settings.dict inbounds
  let rest := _update_user proto_user s
  (rest.1,
   Event.evSerializeUser user.id user.username user.proxy_settings.dict
     inbounds :: rest.2)

/-- `NodeManager.remove_user`: serialize the user with no inbound
allow-list and broadcast it via `_update_user`. -/
def remove_user (user : UserResponse) (s : NodeManagerState) :
    Except PyErr Unit × List Event :=
  let proto_user := serialize_user_for_node user.id user.username
    user.proxy_settings.dict none
  let rest := _update_user proto_user s
  (rest.1,
   Event.evSerializeUser user.id user.username user.proxy_settings.dict
     none :: rest.2)

/-! ### Trace helpers and association-list lemmas -/

/-- Number of events in a trace satisfying `p`. -/
def countEvents (p : Event → Bool) (l : List Event) : Nat :=
  (l.filter p).length

/-- Recognizes a `stop` invocation on the handle named `nm`. -/
def isStopOf (nm : String) : Event → Bool
  | Event.evStop n => n = nm
  | _ => false

/-- Recognizes a `set_health` invocation on the handle named `nm`. -/
def isSetHealthOf (nm : String) : Event → Bool
  | Event.evSetHealth n _ => n = nm
  | _ => false

/-- Recognizes an `update_user` invocation on the handle named `nm`. -/
def isUpdateUserOf (nm : String) : Event → Bool
  | Event.evUpdateUser n _ => n = nm
  | _ => false

/-- Recognizes an `update_users` invocation on the handle named `nm`. -/
def isUpdateUsersOf (nm : String) : Event → Bool
  | Event.evUpdateUsers n _ => n = nm
  | _ => false

/-- Recognizes a call of the batch serializer. -/
def isSerializeUsersEv : Event → Bool
  | Event.evSerializeUsers _ => true
  | _ => false

theorem dictGet_dictSet_self (k : Int) (v : PasarGuardNode)
    (l : List (Int × PasarGuardNode)) : dictGet k (dictSet k v l) = some v := by
  induction l with
  | nil => simp [dictSet, dictGet]
  | cons hd tl ih =>
      by_cases hk : hd.1 = k
      · simp [dictSet, dictGet, hk]
      · simp [dictSet, dictGet, hk, ih]

theorem dictGet_eq_none_iff (k : Int) (l : List (Int × PasarGuardNode)) :
    dictGet k l = none ↔ ∀ p ∈ l, p.1 ≠ k := by
  induction l with
  | nil => simp [dictGet]
  | cons hd tl ih =>
      by_cases hk : hd.1 = k
      · simp [dictGet, hk]
      · simp [dictGet, hk, ih]

theorem dictDel_keys_sublist (k : Int) (l : List (Int × PasarGuardNode)) :
    ((dictDel k l).map Prod.fst).Sublist (l.map Prod.fst) := by
  induction l with
  | nil => simp [dictDel]
  | cons hd tl ih =>
      by_cases hk : hd.1 = k
      · simp only [dictDel, if_pos hk, List.map_cons]
        exact List.sublist_cons_self hd.1 (tl.map Prod.fst)
      · simpa [dictDel, hk] using ih.cons₂ hd.1

theorem dictDel_keys_nodup (k : Int) (l : List (Int × PasarGuardNode))
    (h : (l.map Prod.fst).Nodup) : ((dictDel k l).map Prod.fst).Nodup :=
  h.sublist (dictDel_keys_sublist k l)

theorem dictGet_dictDel_self (k : Int) (l : List (Int × PasarGuardNode))
    (h : (l.map Prod.fst).Nodup) : dictGet k (dictDel k l) = none := by
  induction l with
  | nil => simp [dictDel, dictGet]
  | cons hd tl ih =>
      simp only [List.map_cons, List.nodup_cons] at h
      by_cases hk : hd.1 = k
      · rw [dictDel, if_pos hk]
        rw [dictGet_eq_none_iff]
        intro p hp hpk
        exact h.1 (by simpa [hpk, hk] using List.mem_map_of_mem Prod.fst hp)
      · rw [dictDel, if_neg hk, dictGet, if_neg hk]
        exact ih h.2

theorem mem_keys_dictSet (a k : Int) (v : PasarGuardNode)
    (l : List (Int × PasarGuardNode))
    (h : a ∈ (dictSet k v l).map Prod.fst) :
    a = k ∨ a ∈ l.map Prod.fst := by
  induction l with
  | nil => simpa [dictSet] using h
  | cons hd tl ih =>
      by_cases hk : hd.1 = k
      · simp only [dictSet, if_pos hk, List.map_cons, List.mem_cons] at h
        rcases h with h | h
        · exact Or.inl h
        · exact Or.inr (by simp [h])
      · simp only [dictSet, if_neg hk, List.map_cons, List.mem_cons] at h
        rcases h with h | h
        · exact Or.inr (by simp [h])
        · rcases ih h with h | h
          · exact Or.inl h
          · exact Or.inr (by simp [h])

theorem dictSet_keys_nodup (k : Int) (v : PasarGuardNode)
    (l : List (Int × PasarGuardNode)) (h : (l.map Prod.fst).Nodup) :
    ((dictSet k v l).map Prod.fst).Nodup := by
  induction l with
  | nil => simp [dictSet]
  | cons hd tl ih =>
      simp only [List.map_cons, List.nodup_cons] at h
      by_cases hk : hd.1 = k
      · simp only [dictSet, if_pos hk, List.map_cons, List.nodup_cons]
        exact ⟨fun hmem => h.1 (by simpa [hk] using hmem), h.2⟩
      · simp only [dictSet, if_neg hk, List.map_cons, List.nodup_cons]
        refine ⟨fun hmem => ?_, ih h.2⟩
        rcases mem_keys_dictSet hd.1 k v tl hmem with heq | hmem2
        · exact hk heq
        · exact h.1 hmem2

theorem dictSet_of_absent (k : Int) (v : PasarGuardNode)
    (l : List (Int × PasarGuardNode)) (h : dictGet k l = none) :
    dictSet k v l = l ++ [(k, v)] := by
  induction l with
  | nil => simp [dictSet]
  | cons hd tl ih =>
      rw [dictGet] at h
      by_cases hk : hd.1 = k
      · rw [if_pos hk] at h; exact absurd h (by simp)
      · rw [if_neg hk] at h
        simp [dictSet, hk, ih h]

/-! ### Concrete fixtures used in witnesses and counterexamples -/

/-- A handle with the given name and behavior and fixed connection
parameters. -/
def mkNode (nm : String) (b : NodeBehavior) : PasarGuardNode :=
  ⟨NodeType.rest, "10.0.0.1", 62050, "ca-pem", "api-key", nm, 100, 1, 1, b⟩

/-- A handle whose transport calls all succeed. -/
def okNode (nm : String) : PasarGuardNode := mkNode nm NodeBehavior.fresh

/-- A handle whose `stop` raises (all else succeeds). -/
def stopFailNode (nm : String) : PasarGuardNode :=
  mkNode nm ⟨false, true, some Health.HEALTHY, false, false⟩

/-- A handle whose `set_health` raises (all else succeeds). -/
def setHealthFailNode (nm : String) : PasarGuardNode :=
  mkNode nm ⟨true, false, some Health.HEALTHY, false, false⟩

/-- A handle whose `update_user` raises. -/
def updateUserFailNode (nm : String) : PasarGuardNode :=
  mkNode nm ⟨false, false, some Health.HEALTHY, true, false⟩

/-- A handle whose `update_users` raises. -/
def updateUsersFailNode (nm : String) : PasarGuardNode :=
  mkNode nm ⟨false, false, some Health.HEALTHY, false, true⟩

/-- A handle whose `get_health` query raises. -/
def getHealthFailNode (nm : String) : PasarGuardNode :=
  mkNode nm ⟨false, false, none, false, false⟩

/-- A handle whose `get_health` query reports `h`. -/
def healthyAs (nm : String) (h : Health) : PasarGuardNode :=
  mkNode nm ⟨false, false, some h, false, false⟩

/-- A well-formed REST configuration row for node id 1. -/
def exCfg : Node :=
  ⟨1, NodeConnectionType.rest, "10.0.0.1", 62050, "ca-pem", "api-key",
   "node-one", 100, 1⟩

/-- A configuration row for node id 1 with an unknown connection kind. -/
def exCfgUnknown : Node :=
  ⟨1, NodeConnectionType.other "quic", "10.0.0.1", 62050, "ca-pem", "api-key",
   "node-one", 100, 1⟩

/-- A sample user, as the broadcast operations receive it. -/
def exUser : UserResponse := ⟨7, "alice", ⟨[("vmess", "uuid-1")]⟩⟩

/-- The handle `update_node` builds for configuration `node` once
`type_map` has resolved its connection kind to `conn`. -/
def builtNode (conn : NodeType) (node : Node) : PasarGuardNode :=
  create_node conn node.address node.port node.server_ca node.api_key
    node.name node.max_logs node.id node.usage_coefficient

theorem update_node_eq_of_present (node : Node) (conn : NodeType)
    (old : PasarGuardNode) (s : NodeManagerState)
    (hold : dictGet node.id s.nodes = some old)
    (hconn : type_map node.connection_type = some conn) :
    update_node node s =
      (Except.ok (builtNode conn node), retireCalls old,
       ⟨dictSet node.id (builtNode conn node) (dictDel node.id s.nodes)⟩) := by
  simp [update_node, hold, hconn, builtNode]

theorem remove_node_eq_of_present (id : Int) (old : PasarGuardNode)
    (s : NodeManagerState) (hold : dictGet id s.nodes = some old) :
    remove_node id s = (Except.ok (), retireCalls old, ⟨dictDel id s.nodes⟩) := by
  simp [remove_node, hold]

/-! ### C7 -/

/-- C7: `remove_node` on an id absent from the registry is a no-op: it
does not raise, performs no `set_health`/`stop` (or any other) calls,
and the map afterward equals the map before the call. -/
theorem c7_remove_absent_noop (id : Int) (s : NodeManagerState)
    (h : dictGet id s.nodes = none) :
    remove_node id s = (Except.ok (), ([] : List Event), s) := by
  simp [remove_node, h]

/-- C7 witness: removing absent id 5 from a one-node registry. -/
theorem c7_witness :
    remove_node 5 ⟨[(1, okNode "node-one")]⟩ =
      (Except.ok (), ([] : List Event), ⟨[(1, okNode "node-one")]⟩) :=
  c7_remove_absent_noop 5 ⟨[(1, okNode "node-one")]⟩ (by decide)

/-! ### C4 -/

/-- C4: when the old handle under the id mis-behaves during retirement
(`set_health` or `stop` raises), neither `update_node` nor
`remove_node` propagates the exception; the old handle is still
deleted, and `update_node` still constructs the new handle, installs
it under the same id and returns it. -/
theorem c4_retirement_isolation :
    (∀ (node : Node) (conn : NodeType) (old : PasarGuardNode)
       (s : NodeManagerState),
       dictGet node.id s.nodes = some old →
       old.behavior.setHealthFails = true ∨ old.behavior.stopFails = true →
       type_map node.connection_type = some conn →
       update_node node s =
         (Except.ok (builtNode conn node), retireCalls old,
          ⟨dictSet node.id (builtNode conn node) (dictDel node.id s.nodes)⟩) ∧
       get_node node.id (update_node node s).2.2 = some (builtNode conn node)) ∧
    (∀ (id : Int) (old : PasarGuardNode) (s : NodeManagerState),
       dictGet id s.nodes = some old →
       old.behavior.setHealthFails = true ∨ old.behavior.stopFails = true →
       remove_node id s = (Except.ok (), retireCalls old, ⟨dictDel id s.nodes⟩)) := by
  constructor
  · intro node conn old s hold _ hconn
    refine ⟨update_node_eq_of_present node conn old s hold hconn, ?_⟩
    rw [update_node_eq_of_present node conn old s hold hconn]
    exact dictGet_dictSet_self node.id (builtNode conn node) (dictDel node.id s.nodes)
  · intro id old s hold _
    exact remove_node_eq_of_present id old s hold

/-- C4 witness: a stop-raising old handle under id 1 is replaced, a
health-set-raising old handle under id 3 is removed. -/
theorem c4_witness :
    (update_node exCfg ⟨[(1, stopFailNode "old-one")]⟩ =
       (Except.ok (builtNode NodeType.rest exCfg),
        retireCalls (stopFailNode "old-one"),
        ⟨dictSet exCfg.id (builtNode NodeType.rest exCfg)
           (dictDel exCfg.id [(1, stopFailNode "old-one")])⟩) ∧
     get_node exCfg.id (update_node exCfg ⟨[(1, stopFailNode "old-one")]⟩).2.2 =
       some (builtNode NodeType.rest exCfg)) ∧
    remove_node 3 ⟨[(3, setHealthFailNode "old-three")]⟩ =
      (Except.ok (), retireCalls (setHealthFailNode "old-three"),
       ⟨dictDel 3 [(3, setHealthFailNode "old-three")]⟩) :=
  ⟨c4_retirement_isolation.1 exCfg NodeType.rest (stopFailNode "old-one")
     ⟨[(1, stopFailNode "old-one")]⟩ (by decide) (Or.inr (by decide)) (by decide),
   c4_retirement_isolation.2 3 (setHealthFailNode "old-three")
     ⟨[(3, setHealthFailNode "old-three")]⟩ (by decide) (Or.inl (by decide))⟩

/-! ### C5 -/

/-- C5 counterexample: a concrete registry whose only handle raises on
`set_health`.  `remove_node` deletes the handle, but `stop` is never
requested (the `try` block aborts at `set_health`), refuting "its stop
is requested exactly once". -/
theorem c5_counterexample :
    dictGet 1 (NodeManagerState.mk [(1, setHealthFailNode "old-one")]).nodes =
      some (setHealthFailNode "old-one") ∧
    remove_node 1 ⟨[(1, setHealthFailNode "old-one")]⟩ =
      (Except.ok (), [Event.evSetHealth "old-one" Health.INVALID],
       ⟨([] : List (Int × PasarGuardNode))⟩) ∧
    countEvents (isStopOf "old-one")
      (remove_node 1 ⟨[(1, setHealthFailNode "old-one")]⟩).2.1 = 0 := by
  decide

/-- C5 amended: on replace or removal of an id with an existing old
handle, `set_health INVALID` is requested first; when it succeeds,
`stop` is requested exactly once and only then is the handle removed
from the map; when `set_health` raises, `stop` is not requested but
the handle is still removed; removal happens even when `stop` raises;
after a replace, `get_node` returns the new handle. -/
theorem c5_retirement_order :
    (∀ (id : Int) (old : PasarGuardNode) (s : NodeManagerState),
       dictGet id s.nodes = some old →
       remove_node id s =
         (Except.ok (), retireCalls old, ⟨dictDel id s.nodes⟩) ∧
       retireCalls old =
         (if old.behavior.setHealthFails then
            [Event.evSetHealth old.name Health.INVALID]
          else
            [Event.evSetHealth old.name Health.INVALID,
             Event.evStop old.name]) ∧
       countEvents (isStopOf old.name) (retireCalls old) =
         (if old.behavior.setHealthFails then 0 else 1)) ∧
    (∀ (node : Node) (conn : NodeType) (old : PasarGuardNode)
       (s : NodeManagerState),
       dictGet node.id s.nodes = some old →
       type_map node.connection_type = some conn →
       (update_node node s).2.1 = retireCalls old ∧
       (update_node node s).2.2 =
         ⟨dictSet node.id (builtNode conn node) (dictDel node.id s.nodes)⟩ ∧
       get_node node.id (update_node node s).2.2 =
         some (builtNode conn node)) := by
  constructor
  · intro id old s hold
    refine ⟨remove_node_eq_of_present id old s hold, rfl, ?_⟩
    cases hsf : old.behavior.setHealthFails <;>
      simp [retireCalls, hsf, countEvents, isStopOf]
  · intro node conn old s hold hconn
    rw [update_node_eq_of_present node conn old s hold hconn]
    exact ⟨rfl, rfl,
      dictGet_dictSet_self node.id (builtNode conn node) (dictDel node.id s.nodes)⟩

/-- C5 witness: a removal with a stop-raising handle under id 3, and a
replace over a well-behaved old handle under id 1. -/
theorem c5_witness :
    (remove_node 3 ⟨[(3, stopFailNode "old-three")]⟩ =
       (Except.ok (), retireCalls (stopFailNode "old-three"),
        ⟨dictDel 3 [(3, stopFailNode "old-three")]⟩) ∧
     retireCalls (stopFailNode "old-three") =
       (if (stopFailNode "old-three").behavior.setHealthFails then
          [Event.evSetHealth (stopFailNode "old-three").name Health.INVALID]
        else
          [Event.evSetHealth (stopFailNode "old-three").name Health.INVALID,
           Event.evStop (stopFailNode "old-three").name]) ∧
     countEvents (isStopOf (stopFailNode "old-three").name)
       (retireCalls (stopFailNode "old-three")) =
       (if (stopFailNode "old-three").behavior.setHealthFails then 0 else 1)) ∧
    ((update_node exCfg ⟨[(1, okNode "old-one")]⟩).2.1 =
       retireCalls (okNode "old-one") ∧
     (update_node exCfg ⟨[(1, okNode "old-one")]⟩).2.2 =
       ⟨dictSet exCfg.id (builtNode NodeType.rest exCfg)
          (dictDel exCfg.id [(1, okNode "old-one")])⟩ ∧
     get_node exCfg.id (update_node exCfg ⟨[(1, okNode "old-one")]⟩).2.2 =
       some (builtNode NodeType.rest exCfg)) :=
  ⟨c5_retirement_order.1 3 (stopFailNode "old-three")
     ⟨[(3, stopFailNode "old-three")]⟩ (by decide),
   c5_retirement_order.2 exCfg NodeType.rest (okNode "old-one")
     ⟨[(1, okNode "old-one")]⟩ (by decide) (by decide)⟩

/-! ### C2 -/

/-- C2 counterexample: a registry holding a handle under id 1 and a
configuration for id 1 with unknown connection kind `other "quic"`.
`update_node` raises `KeyError`, but only after retiring and deleting
the old handle: the registry after the failed call is empty, not equal
to the registry before it, and the old handle is no longer installed. -/
theorem c2_counterexample :
    dictGet 1 (NodeManagerState.mk [(1, okNode "old-one")]).nodes =
      some (okNode "old-one") ∧
    (update_node exCfgUnknown ⟨[(1, okNode "old-one")]⟩).1 =
      Except.error PyErr.keyError ∧
    (update_node exCfgUnknown ⟨[(1, okNode "old-one")]⟩).2.2 ≠
      ⟨[(1, okNode "old-one")]⟩ ∧
    get_node 1 (update_node exCfgUnknown ⟨[(1, okNode "old-one")]⟩).2.2 =
      none := by
  decide

/-- C2 amended: an unknown connection kind makes `update_node` raise
`KeyError`; when no handle was registered under the id the registry is
left unchanged, but when one was, it is retired and deleted before the
raise, so the failed call leaves the id absent rather than keeping the
old handle installed. -/
theorem c2_unknown_kind (node : Node) (s : NodeManagerState)
    (hnodup : (s.nodes.map Prod.fst).Nodup)
    (h : type_map node.connection_type = none) :
    (update_node node s).1 = Except.error PyErr.keyError ∧
    (dictGet node.id s.nodes = none → (update_node node s).2.2 = s) ∧
    (∀ old, dictGet node.id s.nodes = some old →
       (update_node node s).2.1 = retireCalls old ∧
       (update_node node s).2.2 = ⟨dictDel node.id s.nodes⟩ ∧
       get_node node.id (update_node node s).2.2 = none) := by
  refine ⟨?_, ?_, ?_⟩
  · cases hget : dictGet node.id s.nodes <;> simp [update_node, hget, h]
  · intro habs
    simp [update_node, habs, h]
  · intro old hold
    refine ⟨by simp [update_node, hold, h], by simp [update_node, hold, h], ?_⟩
    have : (update_node node s).2.2 = ⟨dictDel node.id s.nodes⟩ := by
      simp [update_node, hold, h]
    rw [this]
    exact dictGet_dictDel_self node.id s.nodes hnodup

/-- C2 witness: the unknown-kind configuration applied to a registry
holding id 1. -/
theorem c2_witness :
    (update_node exCfgUnknown ⟨[(1, okNode "old-one")]⟩).1 =
      Except.error PyErr.keyError ∧
    (update_node exCfgUnknown ⟨[(1, okNode "old-one")]⟩).2.1 =
      retireCalls (okNode "old-one") ∧
    (update_node exCfgUnknown ⟨[(1, okNode "old-one")]⟩).2.2 =
      ⟨dictDel exCfgUnknown.id [(1, okNode "old-one")]⟩ ∧
    get_node exCfgUnknown.id
      (update_node exCfgUnknown ⟨[(1, okNode "old-one")]⟩).2.2 = none :=
  have h := c2_unknown_kind exCfgUnknown ⟨[(1, okNode "old-one")]⟩
    (by decide) (by decide)
  have h2 := h.2.2 (okNode "old-one") (by decide)
  ⟨h.1, h2.1, h2.2.1, h2.2.2⟩

/-! ### C6 -/

/-- A registry mutation request: one `update_node` or `remove_node`
call. -/
inductive RegistryOp where
  | upd (node : Node)
  | rem (id : Int)
deriving DecidableEq, Repr

/-- The registry state after one mutation call (result and trace
discarded). -/
def applyOp (op : RegistryOp) (s : NodeManagerState) : NodeManagerState :=
  match op with
  | RegistryOp.upd node => (update_node node s).2.2
  | RegistryOp.rem id => (remove_node id s).2.2

/-- Run a finite sequence of mutation calls from a given state. -/
def runOps : List RegistryOp → NodeManagerState → NodeManagerState
  | [], s => s
  | op :: rest, s => runOps rest (applyOp op s)

theorem update_node_state (node : Node) (s : NodeManagerState) :
    (update_node node s).2.2.nodes =
      (match type_map node.connection_type, dictGet node.id s.nodes with
       | none, none => s.nodes
       | none, some _ => dictDel node.id s.nodes
       | some conn, none => dictSet node.id (builtNode conn node) s.nodes
       | some conn, some _ =>
           dictSet node.id (builtNode conn node) (dictDel node.id s.nodes)) := by
  unfold update_node
  cases dictGet node.id s.nodes <;> cases type_map node.connection_type <;>
    simp [builtNode]

theorem remove_node_state (id : Int) (s : NodeManagerState) :
    (remove_node id s).2.2.nodes =
      (match dictGet id s.nodes with
       | none => s.nodes
       | some _ => dictDel id s.nodes) := by
  unfold remove_node
  cases dictGet id s.nodes <;> simp

theorem applyOp_keys_nodup (op : RegistryOp) (s : NodeManagerState)
    (h : (s.nodes.map Prod.fst).Nodup) :
    ((applyOp op s).nodes.map Prod.fst).Nodup := by
  cases op with
  | upd node =>
      show (((update_node node s).2.2).nodes.map Prod.fst).Nodup
      rw [update_node_state]
      cases type_map node.connection_type <;> cases dictGet node.id s.nodes
      · exact h
      · exact dictDel_keys_nodup node.id s.nodes h
      · exact dictSet_keys_nodup node.id _ s.nodes h
      · exact dictSet_keys_nodup node.id _ _ (dictDel_keys_nodup node.id s.nodes h)
  | rem id =>
      show (((remove_node id s).2.2).nodes.map Prod.fst).Nodup
      rw [remove_node_state]
      cases dictGet id s.nodes
      · exact h
      · exact dictDel_keys_nodup id s.nodes h

theorem runOps_keys_nodup (ops : List RegistryOp) (s : NodeManagerState)
    (h : (s.nodes.map Prod.fst).Nodup) :
    ((runOps ops s).nodes.map Prod.fst).Nodup := by
  induction ops generalizing s with
  | nil => exact h
  | cons op rest ih => exact ih (applyOp op s) (applyOp_keys_nodup op s h)

/-- C6: starting from the empty registry, any finite sequence of
`update_node`/`remove_node` calls leaves the map with at most one
handle per id (no duplicate keys at any point between operations,
since every such point is reached by some prefix of calls); and a
replace over an id that already holds a handle leaves exactly one
entry under that id, namely the newly created handle. -/
theorem c6_uniqueness :
    (∀ ops : List RegistryOp,
       ((runOps ops ⟨[]⟩).nodes.map Prod.fst).Nodup) ∧
    (∀ (node : Node) (conn : NodeType) (s : NodeManagerState),
       (s.nodes.map Prod.fst).Nodup →
       type_map node.connection_type = some conn →
       dictGet node.id s.nodes ≠ none →
       ((update_node node s).2.2.nodes.filter
          (fun p => p.1 = node.id)).length = 1 ∧
       dictGet node.id (update_node node s).2.2.nodes =
         some (builtNode conn node)) := by
  constructor
  · intro ops
    exact runOps_keys_nodup ops ⟨[]⟩ (by simp)
  · intro node conn s hnodup hconn hpresent
    obtain ⟨old, hold⟩ : ∃ old, dictGet node.id s.nodes = some old := by
      cases hget : dictGet node.id s.nodes
      · exact absurd hget hpresent
      · exact ⟨_, rfl⟩
    have hstate : (update_node node s).2.2.nodes =
        dictSet node.id (builtNode conn node) (dictDel node.id s.nodes) := by
      rw [update_node_state, hconn, hold]
    have hdelnone : dictGet node.id (dictDel node.id s.nodes) = none :=
      dictGet_dictDel_self node.id s.nodes hnodup
    constructor
    · rw [hstate, dictSet_of_absent node.id (builtNode conn node) _ hdelnone,
        List.filter_append]
      have hnil : (dictDel node.id s.nodes).filter
          (fun p => decide (p.1 = node.id)) = [] := by
        rw [List.filter_eq_nil_iff]
        intro p hp
        simpa using (dictGet_eq_none_iff node.id (dictDel node.id s.nodes)).1
          hdelnone p hp
      rw [hnil]
      simp
    · rw [hstate]
      exact dictGet_dictSet_self node.id (builtNode conn node)
        (dictDel node.id s.nodes)

/-- C6 witness: a concrete call sequence from the empty registry, and
a replace over the occupied id 1. -/
theorem c6_witness :
    ((runOps [RegistryOp.upd exCfg, RegistryOp.upd exCfg, RegistryOp.rem 2]
        ⟨[]⟩).nodes.map Prod.fst).Nodup ∧
    (((update_node exCfg ⟨[(1, okNode "old-one")]⟩).2.2.nodes.filter
        (fun p => p.1 = exCfg.id)).length = 1 ∧
     dictGet exCfg.id (update_node exCfg ⟨[(1, okNode "old-one")]⟩).2.2.nodes =
       some (builtNode NodeType.rest exCfg)) :=
  ⟨c6_uniqueness.1 [RegistryOp.upd exCfg, RegistryOp.upd exCfg, RegistryOp.rem 2],
   c6_uniqueness.2 exCfg NodeType.rest ⟨[(1, okNode "old-one")]⟩
     (by decide) (by decide) (by decide)⟩

/-! ### C8 -/

theorem healthScan_total (target : Health) (l : List (Int × PasarGuardNode))
    (h : ∀ p ∈ l, (p.2.behavior.getHealth).isSome = true) :
    healthScan target l =
      (Except.ok (l.filter (fun p => p.2.behavior.getHealth = some target)),
       l.map (fun p => Event.evGetHealth p.2.name)) := by
  induction l with
  | nil => simp [healthScan]
  | cons hd tl ih =>
      obtain ⟨hh, hhh⟩ := Option.isSome_iff_exists.1 (h hd (by simp))
      have htl := ih (fun p hp => h p (List.mem_cons_of_mem hd hp))
      by_cases ht : hh = target
      · simp [healthScan, hhh, htl, List.filter_cons, ht, Except.map]
      · simp [healthScan, hhh, htl, List.filter_cons, ht, Except.map]

/-- C8: on a registry where every handle's `get_health` query
succeeds, `get_healthy_nodes` returns exactly the `(id, handle)` pairs
whose queried health is `HEALTHY`, `get_broken_nodes` exactly those
with `BROKEN`, and `get_not_connected_nodes` exactly those with
`NOT_CONNECTED` — as the filtered list in registry order, so nothing
matching is omitted and nothing else included. -/
theorem c8_health_filters (s : NodeManagerState)
    (h : ∀ p ∈ s.nodes, (p.2.behavior.getHealth).isSome = true) :
    (get_healthy_nodes s).1 =
      Except.ok (s.nodes.filter
        (fun p => p.2.behavior.getHealth = some Health.HEALTHY)) ∧
    (get_broken_nodes s).1 =
      Except.ok (s.nodes.filter
        (fun p => p.2.behavior.getHealth = some Health.BROKEN)) ∧
    (get_not_connected_nodes s).1 =
      Except.ok (s.nodes.filter
        (fun p => p.2.behavior.getHealth = some Health.NOT_CONNECTED)) := by
  refine ⟨?_, ?_, ?_⟩
  · rw [get_healthy_nodes, healthScan_total Health.HEALTHY s.nodes h]
  · rw [get_broken_nodes, healthScan_total Health.BROKEN s.nodes h]
  · rw [get_not_connected_nodes, healthScan_total Health.NOT_CONNECTED s.nodes h]

/-- C8 witness: a three-node registry with one node per health
class. -/
theorem c8_witness :
    (get_healthy_nodes ⟨[(1, healthyAs "n-one" Health.HEALTHY),
        (2, healthyAs "n-two" Health.BROKEN),
        (3, healthyAs "n-three" Health.NOT_CONNECTED)]⟩).1 =
      Except.ok ([(1, healthyAs "n-one" Health.HEALTHY),
        (2, healthyAs "n-two" Health.BROKEN),
        (3, healthyAs "n-three" Health.NOT_CONNECTED)].filter
          (fun p => p.2.behavior.getHealth = some Health.HEALTHY)) ∧
    (get_broken_nodes ⟨[(1, healthyAs "n-one" Health.HEALTHY),
        (2, healthyAs "n-two" Health.BROKEN),
        (3, healthyAs "n-three" Health.NOT_CONNECTED)]⟩).1 =
      Except.ok ([(1, healthyAs "n-one" Health.HEALTHY),
        (2, healthyAs "n-two" Health.BROKEN),
        (3, healthyAs "n-three" Health.NOT_CONNECTED)].filter
          (fun p => p.2.behavior.getHealth = some Health.BROKEN)) ∧
    (get_not_connected_nodes ⟨[(1, healthyAs "n-one" Health.HEALTHY),
        (2, healthyAs "n-two" Health.BROKEN),
        (3, healthyAs "n-three" Health.NOT_CONNECTED)]⟩).1 =
      Except.ok ([(1, healthyAs "n-one" Health.HEALTHY),
        (2, healthyAs "n-two" Health.BROKEN),
        (3, healthyAs "n-three" Health.NOT_CONNECTED)].filter
          (fun p => p.2.behavior.getHealth = some Health.NOT_CONNECTED)) :=
  c8_health_filters ⟨[(1, healthyAs "n-one" Health.HEALTHY),
    (2, healthyAs "n-two" Health.BROKEN),
    (3, healthyAs "n-three" Health.NOT_CONNECTED)]⟩ (by decide)

/-! ### C9 -/

theorem countEvents_cons (p : Event → Bool) (e : Event) (l : List Event) :
    countEvents p (e :: l) = (if p e then 1 else 0) + countEvents p l := by
  by_cases h : p e <;> simp [countEvents, List.filter_cons, h, Nat.add_comm]

theorem updateUsersLoop_no_serialize (protos : ProtoUsers)
    (l : List (Int × PasarGuardNode)) :
    countEvents isSerializeUsersEv (updateUsersLoop protos l).2 = 0 := by
  induction l with
  | nil => simp [updateUsersLoop, countEvents]
  | cons hd tl ih =>
      by_cases hf : hd.2.behavior.updateUsersFails
      · simp [updateUsersLoop, hf, countEvents, isSerializeUsersEv]
      · simp [updateUsersLoop, hf, countEvents_cons, isSerializeUsersEv, ih]

theorem updateUsersLoop_total (protos : ProtoUsers)
    (l : List (Int × PasarGuardNode))
    (h : ∀ p ∈ l, p.2.behavior.updateUsersFails = false) :
    updateUsersLoop protos l =
      (Except.ok (), l.map (fun p => Event.evUpdateUsers p.2.name protos)) := by
  induction l with
  | nil => simp [updateUsersLoop]
  | cons hd tl ih =>
      have hhd := h hd (by simp)
      simp [updateUsersLoop, hhd,
        ih (fun p hp => h p (List.mem_cons_of_mem hd hp))]

/-- C9: `update_users` calls the batch serializer exactly once however
many nodes are registered, and when no per-node call fails it sends
that single serialized batch to every handle in the registry, in
registry order, and returns without raising. -/
theorem c9_single_serialization (users : List User) (s : NodeManagerState) :
    countEvents isSerializeUsersEv (update_users users s).2 = 1 ∧
    ((∀ p ∈ s.nodes, p.2.behavior.updateUsersFails = false) →
       update_users users s =
         (Except.ok (),
          Event.evSerializeUsers users ::
            s.nodes.map (fun p =>
              Event.evUpdateUsers p.2.name (serialize_users_for_node users)))) := by
  constructor
  · have := updateUsersLoop_no_serialize (serialize_users_for_node users) s.nodes
    simp [update_users, countEvents_cons, isSerializeUsersEv, this]
  · intro h
    simp [update_users,
      updateUsersLoop_total (serialize_users_for_node users) s.nodes h]

/-- C9 witness: a two-user batch against a two-node registry. -/
theorem c9_witness :
    countEvents isSerializeUsersEv
      (update_users [⟨7⟩, ⟨8⟩] ⟨[(1, okNode "n-one"), (2, okNode "n-two")]⟩).2
      = 1 ∧
    update_users [⟨7⟩, ⟨8⟩] ⟨[(1, okNode "n-one"), (2, okNode "n-two")]⟩ =
      (Except.ok (),
       Event.evSerializeUsers [⟨7⟩, ⟨8⟩] ::
         [(1, okNode "n-one"), (2, okNode "n-two")].map (fun p =>
           Event.evUpdateUsers p.2.name (serialize_users_for_node [⟨7⟩, ⟨8⟩]))) :=
  have h := c9_single_serialization [⟨7⟩, ⟨8⟩]
    ⟨[(1, okNode "n-one"), (2, okNode "n-two")]⟩
  ⟨h.1, h.2 (by decide)⟩

/-! ### C1 -/

/-- C1 counterexample: a two-node registry whose first handle raises
on the user call.  The single-user broadcast raises and never invokes
`update_user` on the second handle; the batch broadcast and the
removal broadcast behave the same way — refuting that the broadcast
"still invokes the call on all N−1 other handles and does not
raise". -/
theorem c1_counterexample :
    (update_user exUser none
       ⟨[(1, updateUserFailNode "n-one"), (2, okNode "n-two")]⟩).1 =
      Except.error PyErr.nodeError ∧
    countEvents (isUpdateUserOf "n-two")
      (update_user exUser none
        ⟨[(1, updateUserFailNode "n-one"), (2, okNode "n-two")]⟩).2 = 0 ∧
    (update_users [⟨7⟩]
       ⟨[(1, updateUsersFailNode "n-one"), (2, okNode "n-two")]⟩).1 =
      Except.error PyErr.nodeError ∧
    countEvents (isUpdateUsersOf "n-two")
      (update_users [⟨7⟩]
        ⟨[(1, updateUsersFailNode "n-one"), (2, okNode "n-two")]⟩).2 = 0 ∧
    (remove_user exUser
       ⟨[(1, updateUserFailNode "n-one"), (2, okNode "n-two")]⟩).1 =
      Except.error PyErr.nodeError := by
  decide

theorem updateUserLoop_fail (proto : ProtoUser)
    (l1 l2 : List (Int × PasarGuardNode)) (k : Int) (nk : PasarGuardNode)
    (h1 : ∀ p ∈ l1, p.2.behavior.updateUserFails = false)
    (hk : nk.behavior.updateUserFails = true) :
    updateUserLoop proto (l1 ++ (k, nk) :: l2) =
      (Except.error PyErr.nodeError,
       l1.map (fun p => Event.evUpdateUser p.2.name proto) ++
         [Event.evUpdateUser nk.name proto]) := by
  induction l1 with
  | nil => simp [updateUserLoop, hk]
  | cons hd tl ih =>
      have hhd := h1 hd (by simp)
      simp [updateUserLoop, hhd,
        ih (fun p hp => h1 p (List.mem_cons_of_mem hd hp))]

theorem updateUsersLoop_fail (protos : ProtoUsers)
    (l1 l2 : List (Int × PasarGuardNode)) (k : Int) (nk : PasarGuardNode)
    (h1 : ∀ p ∈ l1, p.2.behavior.updateUsersFails = false)
    (hk : nk.behavior.updateUsersFails = true) :
    updateUsersLoop protos (l1 ++ (k, nk) :: l2) =
      (Except.error PyErr.nodeError,
       l1.map (fun p => Event.evUpdateUsers p.2.name protos) ++
         [Event.evUpdateUsers nk.name protos]) := by
  induction l1 with
  | nil => simp [updateUsersLoop, hk]
  | cons hd tl ih =>
      have hhd := h1 hd (by simp)
      simp [updateUsersLoop, hhd,
        ih (fun p hp => h1 p (List.mem_cons_of_mem hd hp))]

/-- C1 amended: the broadcast loops have no per-node error handling.
When the handle at position k raises, `_update_user` (the engine
behind `update_user` and `remove_user`) raises and has invoked
`update_user` only on the handles up to and including k in snapshot
order — the handles after k are never reached; `update_users` behaves
the same way. -/
theorem c1_failure_propagates :
    (∀ (proto : ProtoUser) (l1 l2 : List (Int × PasarGuardNode)) (k : Int)
       (nk : PasarGuardNode),
       (∀ p ∈ l1, p.2.behavior.updateUserFails = false) →
       nk.behavior.updateUserFails = true →
       _update_user proto ⟨l1 ++ (k, nk) :: l2⟩ =
         (Except.error PyErr.nodeError,
          l1.map (fun p => Event.evUpdateUser p.2.name proto) ++
            [Event.evUpdateUser nk.name proto])) ∧
    (∀ (users : List User) (l1 l2 : List (Int × PasarGuardNode)) (k : Int)
       (nk : PasarGuardNode),
       (∀ p ∈ l1, p.2.behavior.updateUsersFails = false) →
       nk.behavior.updateUsersFails = true →
       update_users users ⟨l1 ++ (k, nk) :: l2⟩ =
         (Except.error PyErr.nodeError,
          Event.evSerializeUsers users ::
            (l1.map (fun p =>
               Event.evUpdateUsers p.2.name (serialize_users_for_node users)) ++
             [Event.evUpdateUsers nk.name (serialize_users_for_node users)]))) := by
  constructor
  · intro proto l1 l2 k nk h1 hk
    exact updateUserLoop_fail proto l1 l2 k nk h1 hk
  · intro users l1 l2 k nk h1 hk
    simp [update_users,
      updateUsersLoop_fail (serialize_users_for_node users) l1 l2 k nk h1 hk]

/-- C1 witness: the failing handle sits between two healthy ones. -/
theorem c1_witness :
    _update_user ⟨7, "alice", [("vmess", "uuid-1")], none⟩
      ⟨[(1, okNode "n-one")] ++ (2, updateUserFailNode "n-two") ::
        [(3, okNode "n-three")]⟩ =
      (Except.error PyErr.nodeError,
       [(1, okNode "n-one")].map (fun p =>
         Event.evUpdateUser p.2.name ⟨7, "alice", [("vmess", "uuid-1")], none⟩) ++
         [Event.evUpdateUser (updateUserFailNode "n-two").name
           ⟨7, "alice", [("vmess", "uuid-1")], none⟩]) ∧
    update_users [⟨7⟩]
      ⟨[(1, okNode "n-one")] ++ (2, updateUsersFailNode "n-two") ::
        [(3, okNode "n-three")]⟩ =
      (Except.error PyErr.nodeError,
       Event.evSerializeUsers [⟨7⟩] ::
         ([(1, okNode "n-one")].map (fun p =>
            Event.evUpdateUsers p.2.name (serialize_users_for_node [⟨7⟩])) ++
          [Event.evUpdateUsers (updateUsersFailNode "n-two").name
            (serialize_users_for_node [⟨7⟩])])) :=
  ⟨c1_failure_propagates.1 ⟨7, "alice", [("vmess", "uuid-1")], none⟩
     [(1, okNode "n-one")] [(3, okNode "n-three")] 2
     (updateUserFailNode "n-two") (by decide) (by decide),
   c1_failure_propagates.2 [⟨7⟩]
     [(1, okNode "n-one")] [(3, okNode "n-three")] 2
     (updateUsersFailNode "n-two") (by decide) (by decide)⟩

/-! ### C3 -/

/-- C3 counterexample: a three-node registry whose middle handle's
`get_health` raises.  Each health scan raises instead of returning the
other matching handles — refuting "the scan does not raise and the
failing handle is excluded from the result". -/
theorem c3_counterexample :
    (get_healthy_nodes ⟨[(1, healthyAs "n-one" Health.HEALTHY),
        (2, getHealthFailNode "n-two"),
        (3, healthyAs "n-three" Health.HEALTHY)]⟩).1 =
      Except.error PyErr.nodeError ∧
    (get_broken_nodes ⟨[(1, healthyAs "n-one" Health.BROKEN),
        (2, getHealthFailNode "n-two"),
        (3, healthyAs "n-three" Health.BROKEN)]⟩).1 =
      Except.error PyErr.nodeError ∧
    (get_not_connected_nodes ⟨[(1, healthyAs "n-one" Health.NOT_CONNECTED),
        (2, getHealthFailNode "n-two"),
        (3, healthyAs "n-three" Health.NOT_CONNECTED)]⟩).1 =
      Except.error PyErr.nodeError := by
  decide

theorem healthScan_fail (target : Health)
    (l1 l2 : List (Int × PasarGuardNode)) (k : Int) (nk : PasarGuardNode)
    (h1 : ∀ p ∈ l1, (p.2.behavior.getHealth).isSome = true)
    (hk : nk.behavior.getHealth = none) :
    (healthScan target (l1 ++ (k, nk) :: l2)).1 =
      Except.error PyErr.nodeError := by
  induction l1 with
  | nil => simp [healthScan, hk]
  | cons hd tl ih =>
      obtain ⟨hh, hhh⟩ := Option.isSome_iff_exists.1 (h1 hd (by simp))
      have htl := ih (fun p hp => h1 p (List.mem_cons_of_mem hd hp))
      simp only [List.cons_append, healthScan, hhh, Except.map, List.append_eq]
      rw [htl]

/-- C3 amended: when `get_health` raises for the handle at position k
(all handles before it answering), every health scan raises — the
comprehension aborts and propagates the query failure instead of
excluding the failing handle. -/
theorem c3_scan_propagates (l1 l2 : List (Int × PasarGuardNode)) (k : Int)
    (nk : PasarGuardNode)
    (h1 : ∀ p ∈ l1, (p.2.behavior.getHealth).isSome = true)
    (hk : nk.behavior.getHealth = none) :
    (get_healthy_nodes ⟨l1 ++ (k, nk) :: l2⟩).1 =
      Except.error PyErr.nodeError ∧
    (get_broken_nodes ⟨l1 ++ (k, nk) :: l2⟩).1 =
      Except.error PyErr.nodeError ∧
    (get_not_connected_nodes ⟨l1 ++ (k, nk) :: l2⟩).1 =
      Except.error PyErr.nodeError :=
  ⟨healthScan_fail Health.HEALTHY l1 l2 k nk h1 hk,
   healthScan_fail Health.BROKEN l1 l2 k nk h1 hk,
   healthScan_fail Health.NOT_CONNECTED l1 l2 k nk h1 hk⟩

/-- C3 witness: the query-raising handle sits between two healthy
handles. -/
theorem c3_witness :
    (get_healthy_nodes ⟨[(1, healthyAs "n-one" Health.HEALTHY)] ++
        (2, getHealthFailNode "n-two") ::
          [(3, healthyAs "n-three" Health.HEALTHY)]⟩).1 =
      Except.error PyErr.nodeError ∧
    (get_broken_nodes ⟨[(1, healthyAs "n-one" Health.HEALTHY)] ++
        (2, getHealthFailNode "n-two") ::
          [(3, healthyAs "n-three" Health.HEALTHY)]⟩).1 =
      Except.error PyErr.nodeError ∧
    (get_not_connected_nodes ⟨[(1, healthyAs "n-one" Health.HEALTHY)] ++
        (2, getHealthFailNode "n-two") ::
          [(3, healthyAs "n-three" Health.HEALTHY)]⟩).1 =
      Except.error PyErr.nodeError :=
  c3_scan_propagates [(1, healthyAs "n-one" Health.HEALTHY)]
    [(3, healthyAs "n-three" Health.HEALTHY)] 2 (getHealthFailNode "n-two")
    (by decide) (by decide)

/-! ### C10 -/

/-- C10: `remove_user` performs exactly the same observable operations
as `update_user` with no inbound allow-list: the identical serializer
call on the same `(id, username, proxy_settings)` triple followed by
the identical `node.update_user` broadcast — same result, same trace,
on every registry state; no node method distinct from the upsert path
is ever invoked for a removal. -/
theorem c10_removal_is_upsert (user : UserResponse) (s : NodeManagerState) :
    remove_user user s = update_user user none s := rfl
